import Mathlib

/-!
Shallow embedding of the patch-application engine of the `ai-coder` repository
(package `v2/pkg/modifyFiles` together with the marker constants of
`v2/pkg/utils/marker.go`).

Strings are modelled as `List Char`; all inputs relevant to the claims are
ASCII, so Go's byte-indexed `strings.Index` and the character-indexed search
used here agree.  File-system side effects are modelled by explicit state
passing (a map from path to content and permission bits); logging is ignored.
-/

namespace AICoder

/-- Character class accepted by Go's `unicode.IsSpace`, which is what
`strings.TrimSpace` and `strings.Fields` cut. -/
def isGoSpace (c : Char) : Bool :=
  c = ' ' || c = '\t' || c = '\n' || c = '\x0B' || c = '\x0C' || c = '\r' ||
  c = '\u0085' || c = '\u00A0' || c = '\u1680' ||
  ('\u2000' <= c && c <= '\u200A') ||
  c = '\u2028' || c = '\u2029' || c = '\u202F' || c = '\u205F' || c = '\u3000'

/-- Go `strings.TrimSpace`: drop whitespace from both ends. -/
def trimSpace (l : List Char) : List Char :=
  (l.dropWhile isGoSpace).rdropWhile isGoSpace

/-- Go `strings.Index(hay, needle)` as an `Option`: index of the first
occurrence of `needle` as a contiguous substring of `hay` (`some 0` for an
empty needle, like Go's `0`); `none` plays the role of Go's `-1`. -/
def strIndex? (hay needle : List Char) : Option Nat :=
  if needle.isPrefixOf hay then some 0
  else
    match hay with
    | [] => none
    | _ :: t => (strIndex? t needle).map (· + 1)

/-- Go `strings.Split(s, "\n")`: never returns an empty list; the empty
string splits into `[""]`. -/
def splitNl : List Char → List (List Char)
  | [] => [[]]
  | c :: t =>
    if c = '\n' then [] :: splitNl t
    else
      match splitNl t with
      | [] => [[c]]
      | h :: r => (c :: h) :: r

/-- Go `strings.Join(xs, "\n")`. -/
def joinNl (xs : List (List Char)) : List Char :=
  List.intercalate ['\n'] xs

/-- Go `strings.Fields`: split around runs of whitespace.  `acc` holds the
current field, reversed. -/
def fieldsAux : List Char → List Char → List (List Char)
  | [], acc => if acc.isEmpty then [] else [acc.reverse]
  | c :: t, acc =>
    if isGoSpace c then
      if acc.isEmpty then fieldsAux t [] else acc.reverse :: fieldsAux t []
    else fieldsAux t (c :: acc)

def fields (l : List Char) : List (List Char) := fieldsAux l []

/-- Go `strings.TrimPrefix`. -/
def trimPrefixStr (s p : List Char) : List Char :=
  if p.isPrefixOf s then s.drop p.length else s

/-! ### Marker vocabulary (`v2/pkg/utils/marker.go`) -/

def BeginMarkerPfx : List Char := "--- BEGIN_OF_FILE:".data
def BeginMarkerSfx : List Char := " ---\n".data
def EndMarkerPfx : List Char := "\n--- END_OF_FILE: ".data
def EndMarkerSfx : List Char := " ---\n".data

/-! ### Response sanitizer (`cleanAIMarkdown`, fullText.go lines 129-147) -/

/-- `cleanAIMarkdown` from `v2/pkg/modifyFiles/fullText.go`: trim surrounding
whitespace; if the result has at least two lines and both the first and the
last line start with a code fence, drop those two lines, rejoin and trim
again; otherwise return the trimmed text. -/
def cleanAIMarkdown (response : List Char) : List Char :=
  let r := trimSpace response
  let lines := splitNl r
  if lines.length < 2 then r
  else
    if ("```".data.isPrefixOf (lines.headD []) &&
        "```".data.isPrefixOf (lines.getLastD [])) then
      trimSpace (joinNl ((lines.drop 1).dropLast))
    else r

/-! ### Full-text block splitter (`ApplyFullTextChangesToFiles`, fullText.go lines 38-115)

The scanning loop of `ApplyFullTextChangesToFiles` is embedded as a pure
function returning the extracted `(filePath, fileContent)` blocks in scan
order (each block is written to disk as soon as it is extracted; the list
records those writes).  The loop is turned into structural recursion on an
explicit fuel argument: every iteration advances the cursor by at least
`contentStart > 0` characters, so `rem.length + 1` units of fuel are always
enough and the fuel never runs out before the loop's own exit conditions. -/

def extractBlocksFuel : Nat → List Char → List (List Char × List Char)
  | 0, _ => []
  | fuel + 1, rem =>
    match strIndex? rem BeginMarkerPfx with
    | none => []            -- no more begin markers found
    | some bi =>
      -- the path starts immediately after the begin-marker prefix
      let afterPath := rem.drop (bi + BeginMarkerPfx.length)
      match strIndex? afterPath BeginMarkerSfx with
      | none => []          -- malformed begin marker: missing suffix
      | some pe =>
        let filePath := trimSpace (afterPath.take pe)
        -- content starts immediately after the full begin marker
        let seg := afterPath.drop (pe + BeginMarkerSfx.length)
        let fullEnd := EndMarkerPfx ++ filePath ++ EndMarkerSfx
        match strIndex? seg fullEnd with
        | some ei =>
          (filePath, seg.take ei) ::
            extractBlocksFuel fuel (seg.drop (ei + fullEnd.length))
        | none =>
          -- robustness: retry without the final trailing newline
          let relaxedEnd := EndMarkerPfx ++ filePath ++ " ---".data
          match strIndex? seg relaxedEnd with
          | some ei =>
            (filePath, seg.take ei) ::
              extractBlocksFuel fuel (seg.drop (ei + relaxedEnd.length))
          | none => []      -- cannot find end marker: stop scanning

def extractBlocks (rem : List Char) : List (List Char × List Char) :=
  extractBlocksFuel (rem.length + 1) rem

def errNoBlocks : List Char := "no valid file blocks found in AI response".data

/-- `ApplyFullTextChangesToFiles`: sanitize, trim, scan for blocks; each
extracted block is written to its path (the returned list, in order); the
call errs exactly when no block was found.  The diagnostic copy written to
`/tmp/fullTextChanges.txt` and the per-file existence logging are I/O only
and are not modelled. -/
def ApplyFullTextChangesToFiles (fullTextResponse : List Char) :
    Except (List Char) (List (List Char × List Char)) :=
  let cleaned := trimSpace (cleanAIMarkdown fullTextResponse)
  let blocks := extractBlocks cleaned
  if blocks.isEmpty then .error errNoBlocks else .ok blocks

/-! ### Patch applier (`ApplyUnifiedDiff`, udf.go lines 18-59)

`ApplyUnifiedDiff` delegates parsing and hunk application to the external
`diffmatchpatch` library, whose source is not part of this repository.  The
two library entry points are therefore modelled from the spec (§4.3): hunks
are parsed from `@@` headers plus leading-character-tagged lines, and are
applied in order against the content as a flat character stream, each hunk's
pre-image (context+deleted lines joined) located by first occurrence in the
remaining content and replaced by its post-image (context+added lines). -/

inductive PatchTag | context | add | del
deriving DecidableEq

/-- One hunk: its tagged lines (the `@@` header's numeric fields are
advisory only, per the spec, and are not retained). -/
abbrev Hunk := List (PatchTag × List Char)

def closeHunk : Option Hunk → List Hunk → List Hunk
  | none, acc => acc
  | some h, acc => acc ++ [h]

/-- Modelled from the spec: the hunk parser of the external diffmatchpatch
library (`dmp.PatchFromText`).  A line starting `@@` opens a hunk; lines
tagged `' '`, `'-'`, `'+'` belong to the open hunk; any other line closes
it. -/
def patchFromTextAux : List (List Char) → Option Hunk → List Hunk → List Hunk
  | [], cur, acc => closeHunk cur acc
  | l :: ls, cur, acc =>
    if "@@".data.isPrefixOf l then patchFromTextAux ls (some []) (closeHunk cur acc)
    else
      match cur with
      | none => patchFromTextAux ls none acc
      | some h =>
        match l with
        | [] => patchFromTextAux ls none (closeHunk (some h) acc)
        | c :: restLine =>
          if c = ' ' then patchFromTextAux ls (some (h ++ [(.context, restLine)])) acc
          else if c = '-' then patchFromTextAux ls (some (h ++ [(.del, restLine)])) acc
          else if c = '+' then patchFromTextAux ls (some (h ++ [(.add, restLine)])) acc
          else patchFromTextAux ls none (closeHunk (some h) acc)

def patchFromText (unifiedDiff : List Char) : List Hunk :=
  patchFromTextAux (splitNl unifiedDiff) none []

/-- A hunk's pre-image: context and deleted lines, each with its newline. -/
def preimage (h : Hunk) : List Char :=
  h.foldr (fun tl acc => if tl.1 = .add then acc else tl.2 ++ '\n' :: acc) []

/-- A hunk's post-image: context and added lines, each with its newline. -/
def postimage (h : Hunk) : List Char :=
  h.foldr (fun tl acc => if tl.1 = .del then acc else tl.2 ++ '\n' :: acc) []

/-- Modelled from the spec: `dmp.PatchApply` applied to the parsed hunks.
`done` is the already-rewritten output, `remaining` the not-yet-consumed
original content; each hunk reports a success flag, and a hunk whose
pre-image is not found leaves the content untouched and is flagged false. -/
def patchApplyAux : List Hunk → List Char → List Char → List Char × List Bool
  | [], done, remaining => (done ++ remaining, [])
  | h :: hs, done, remaining =>
    match strIndex? remaining (preimage h) with
    | none =>
      let rf := patchApplyAux hs done remaining
      (rf.1, false :: rf.2)
    | some i =>
      let rf := patchApplyAux hs (done ++ remaining.take i ++ postimage h)
        (remaining.drop (i + (preimage h).length))
      (rf.1, true :: rf.2)

def patchApply (patches : List Hunk) (content : List Char) :
    List Char × List Bool :=
  patchApplyAux patches [] content

def errContextMismatch : List Char :=
  "one or more patches failed to apply due to context mismatch or other issues".data

/-- `ApplyUnifiedDiff` from `v2/pkg/modifyFiles/udf.go`, mirroring Go's
`(string, error)` return as `List Char × Option (List Char)`: zero parsed
patches return the original content; otherwise the patches are applied and
any false success flag discards the result and yields the error with empty
content. -/
def ApplyUnifiedDiff (originalContent unifiedDiff : List Char) :
    List Char × Option (List Char) :=
  let patches := patchFromText unifiedDiff
  if patches.isEmpty then (originalContent, none)
  else
    let rf := patchApply patches originalContent
    if rf.2.all (· = true) then (rf.1, none)
    else ([], some errContextMismatch)

/-! ### Multi-file diff splitter (`parseUnifiedDiffString`, udf.go lines 70-145)

Go stores the per-file diffs in a `map[string]string`; the embedding uses an
association list updated in place (`upsert`), which realizes the map's
last-write-wins semantics while additionally recording the order in which
the sections were saved. -/

def upsert : List (List Char × List Char) → List Char → List Char →
    List (List Char × List Char)
  | [], k, v => [(k, v)]
  | (k', v') :: t, k, v =>
    if k' = k then (k, v) :: t else (k', v') :: upsert t k v

/-- The line loop of `parseUnifiedDiffString`: state is the remaining lines,
`currentFilePath` (`[]` plays Go's `""`), the current diff builder,
`inDiffBlock`, and the accumulated per-file diffs. -/
def parseUDSAux : List (List Char) → List Char → List Char → Bool →
    List (List Char × List Char) → List (List Char × List Char)
  | [], path, bld, inB, acc =>
    -- after the loop, add the last file's diff if any was being processed
    if inB && !path.isEmpty then upsert acc path bld else acc
  | line :: rest, path, bld, inB, acc =>
    if "--- a/".data.isPrefixOf line then
      -- save the previous file's collected diff, then reset for the new one
      let acc' := if inB && !path.isEmpty then upsert acc path bld else acc
      let parts := fields line
      if 2 ≤ parts.length then
        -- trim the "a" prefix of the second field, keeping any leading '/'
        let p := trimPrefixStr (parts.getD 1 []) ['a']
        if p.isEmpty || p = ['/'] then
          -- malformed or empty path: invalidate the block and continue
          parseUDSAux rest [] [] false acc'
        else
          parseUDSAux rest p (line ++ ['\n']) true acc'
      else
        parseUDSAux rest [] [] false acc'
    else if "+++ b/".data.isPrefixOf line then
      if inB && !path.isEmpty then
        parseUDSAux rest path (bld ++ line ++ ['\n']) inB acc
      else
        parseUDSAux rest path bld inB acc  -- out-of-sequence header: skipped
    else if inB && !path.isEmpty then
      parseUDSAux rest path (bld ++ line ++ ['\n']) inB acc
    else
      parseUDSAux rest path bld inB acc    -- line outside any diff block

/-- `parseUnifiedDiffString` from `v2/pkg/modifyFiles/udf.go` (its `error`
result is always `nil` in the source, so only the mapping is returned). -/
def parseUnifiedDiffString (unifiedDiff : List Char) :
    List (List Char × List Char) :=
  parseUDSAux (splitNl unifiedDiff) [] [] false []

/-! ### File write coordinator (`ApplyChangesToFiles`, udf.go lines 150-201) -/

/-- The file system: path to (content, permission bits). -/
def FileSystem : Type := List Char → Option (List Char × Nat)

/-- Modelled from Go `os.WriteFile`'s documented semantics: a missing file
is created with the given permission bits; an existing file is truncated
and rewritten without changing its permission bits. -/
def writeFileModel (fs : FileSystem) (p c : List Char) (perm : Nat) :
    FileSystem :=
  fun q =>
    if q = p then
      some (c, match fs p with | some (_, old) => old | none => perm)
    else fs q

inductive CoordError
  | fileNotFound : List Char → CoordError
  | applyFailed : List Char → List Char → CoordError
deriving DecidableEq

/-- The per-file loop of `ApplyChangesToFiles`: read the original content
(fail if the file is absent), apply the diff (fail on error, discarding the
empty content), and write the new content back with mode `0644`. -/
def runUnits : FileSystem → List (List Char × List Char) →
    FileSystem × Option CoordError
  | fs, [] => (fs, none)
  | fs, (filePath, diffContent) :: rest =>
    match fs filePath with
    | none => (fs, some (.fileNotFound filePath))
    | some (originalContent, _) =>
      match ApplyUnifiedDiff originalContent diffContent with
      | (_, some msg) => (fs, some (.applyFailed filePath msg))
      | (newContent, none) =>
        runUnits (writeFileModel fs filePath newContent 0o644) rest

/-- `ApplyChangesToFiles` from `v2/pkg/modifyFiles/udf.go`, as a transformer
of the modelled file system: parse the multi-file diff, then process each
unit in sequence, stopping at the first failure. -/
def ApplyChangesToFiles (fs : FileSystem) (unifiedDiff : List Char) :
    FileSystem × Option CoordError :=
  let fileDiffs := parseUnifiedDiffString unifiedDiff
  if fileDiffs.isEmpty then (fs, none)
  else runUnits fs fileDiffs

/-! ### The amended sanitizer contract

Second definition for the refinement statement of the sanitizer claim,
written from the amended spec sentence: trim surrounding whitespace first;
if the trimmed text has at least two lines and both its first and its last
line start with a fenced-code marker, remove those two boundary lines and
return the interior, again whitespace-trimmed; otherwise return the trimmed
text. -/
def cleanSpecAmended (response : List Char) : List Char :=
  let t := trimSpace response
  let ls := splitNl t
  if 2 ≤ ls.length then
    if "```".data.isPrefixOf (ls.headD []) &&
       "```".data.isPrefixOf (ls.getLastD []) then
      trimSpace (joinNl ((ls.drop 1).dropLast))
    else t
  else t

/-! ### Auxiliary lemmas -/

theorem dropWhile_trimSpace (l : List Char) :
    (trimSpace l).dropWhile isGoSpace = trimSpace l := by
  rw [List.dropWhile_eq_self_iff]
  intro hl
  have hpre : trimSpace l <+: l.dropWhile isGoSpace :=
    List.rdropWhile_prefix isGoSpace (l.dropWhile isGoSpace)
  have hlen : 0 < (l.dropWhile isGoSpace).length :=
    lt_of_lt_of_le hl hpre.length_le
  have hfix := List.dropWhile_eq_self_iff.mp
    (List.dropWhile_idempotent (l := l) (p := isGoSpace)) hlen
  simpa [List.get_eq_getElem, hpre.getElem hl] using hfix

theorem trimSpace_idem (l : List Char) :
    trimSpace (trimSpace l) = trimSpace l := by
  show ((trimSpace l).dropWhile isGoSpace).rdropWhile isGoSpace = trimSpace l
  rw [dropWhile_trimSpace]
  exact List.rdropWhile_idempotent isGoSpace (l.dropWhile isGoSpace)

theorem trimSpace_cleanAIMarkdown (s : List Char) :
    trimSpace (cleanAIMarkdown s) = cleanAIMarkdown s := by
  simp only [cleanAIMarkdown]
  split
  · exact trimSpace_idem _
  · split
    · exact trimSpace_idem _
    · exact trimSpace_idem _

theorem all_eq_false_of_mem_false {l : List Bool} (h : false ∈ l) :
    l.all (· = true) = false := by
  cases hv : l.all (· = true)
  · rfl
  · exact absurd (List.all_eq_true.mp hv false h) (by decide)

/-! ### Claim theorems -/

/-- C1: on a full-text response containing exactly one begin/end marker pair
for `/tmp/a.txt` whose body between the markers is `"hello\n"`, the
full-text splitter extracts exactly one block mapping `/tmp/a.txt` to the
replacement content `"hello\n"` — the body including its trailing
newline. -/
theorem c1_fullText_single_block :
    ApplyFullTextChangesToFiles
      ("--- BEGIN_OF_FILE: /tmp/a.txt ---\nhello\n\n--- END_OF_FILE: /tmp/a.txt ---\n".data) =
      .ok [("/tmp/a.txt".data, "hello\n".data)] := by
  rfl

/-- C2 (counterexample): on the two-file diff input the splitter does NOT
yield the paths `x` and `y` — the code strips only the character `"a"` from
the header's second field, keeping the `/`. -/
theorem c2_counterexample :
    ((parseUnifiedDiffString
      ("--- a/x\n+++ b/x\n@@ -1,1 +1,1 @@\n-old\n+new\n--- a/y\n+++ b/y\n@@ -1,1 +1,1 @@\n-1\n+2\n".data)).map
        Prod.fst) ≠ ["x".data, "y".data] := by
  decide

/-- C2 (amended): on that input the splitter yields exactly two edit units,
in that order, whose extracted file paths are `/x` and `/y` (only the
character `"a"` of the VCS prefix is stripped, the `/` is kept), each unit
carrying its own section of the diff. -/
theorem c2_two_units_slash_paths :
    parseUnifiedDiffString
      ("--- a/x\n+++ b/x\n@@ -1,1 +1,1 @@\n-old\n+new\n--- a/y\n+++ b/y\n@@ -1,1 +1,1 @@\n-1\n+2\n".data) =
      [("/x".data, "--- a/x\n+++ b/x\n@@ -1,1 +1,1 @@\n-old\n+new\n".data),
       ("/y".data, "--- a/y\n+++ b/y\n@@ -1,1 +1,1 @@\n-1\n+2\n\n".data)] := by
  rfl

/-- C3: whenever some parsed hunk's pre-image cannot be matched in the
content at the point it is reached (a false success flag), `ApplyUnifiedDiff`
returns the context-mismatch error together with empty content — never a
partially patched result — and the coordinator performs no write to that
file: the file system is returned unchanged with the failure. -/
theorem c3_failed_hunk_no_partial_no_write (originalContent unifiedDiff : List Char)
    (h : false ∈ (patchApply (patchFromText unifiedDiff) originalContent).2) :
    ApplyUnifiedDiff originalContent unifiedDiff = ([], some errContextMismatch) ∧
    ∀ (fs : FileSystem) (p : List Char) (perm : Nat)
      (rest : List (List Char × List Char)),
      fs p = some (originalContent, perm) →
      runUnits fs ((p, unifiedDiff) :: rest) =
        (fs, some (.applyFailed p errContextMismatch)) := by
  have hne : (patchFromText unifiedDiff).isEmpty = false := by
    rcases hp : patchFromText unifiedDiff with _ | _
    · rw [hp] at h
      simp [patchApply, patchApplyAux] at h
    · rfl
  have hall := all_eq_false_of_mem_false h
  have happ : ApplyUnifiedDiff originalContent unifiedDiff =
      ([], some errContextMismatch) := by
    simp only [ApplyUnifiedDiff, hne, Bool.false_eq_true, if_false]
    rw [if_neg (by rw [hall]; exact Bool.false_ne_true)]
  refine ⟨happ, ?_⟩
  intro fs p perm rest hfs
  simp [runUnits, hfs, happ]

/-- C3 witness: the single hunk deleting `zzz` does not match in `abc`. -/
theorem c3_witness :
    ApplyUnifiedDiff ("abc".data) ("@@ -1 +1 @@\n-zzz\n+y\n".data) =
      ([], some errContextMismatch) ∧
    runUnits (fun q => if q = "/f".data then some ("abc".data, 0o600) else none)
        [("/f".data, "@@ -1 +1 @@\n-zzz\n+y\n".data)] =
      ((fun q => if q = "/f".data then some ("abc".data, 0o600) else none),
       some (.applyFailed ("/f".data) errContextMismatch)) := by
  have h := c3_failed_hunk_no_partial_no_write ("abc".data)
    ("@@ -1 +1 @@\n-zzz\n+y\n".data) (by decide)
  exact ⟨h.1, h.2 _ ("/f".data) 0o600 [] rfl⟩

/-- C4: a diff text from which zero patches are parsed is not an error:
`ApplyUnifiedDiff` succeeds and returns the original content unchanged. -/
theorem c4_zero_patches_identity (originalContent unifiedDiff : List Char)
    (h : patchFromText unifiedDiff = []) :
    ApplyUnifiedDiff originalContent unifiedDiff = (originalContent, none) := by
  simp [ApplyUnifiedDiff, h]

/-- C4 witness: the empty diff parses to zero patches and leaves `abc`
unchanged. -/
theorem c4_witness :
    patchFromText ("".data) = [] ∧
    ApplyUnifiedDiff ("abc".data) ("".data) = ("abc".data, none) :=
  ⟨by decide, c4_zero_patches_identity ("abc".data) ("".data) (by decide)⟩

/-- C5 (counterexample): the sanitizer does not leave every non-fenced input
unchanged byte for byte — it always trims surrounding whitespace. -/
theorem c5_counterexample :
    cleanAIMarkdown (" x".data) ≠ " x".data := by
  decide

/-- C5 (amended): the sanitizer first trims surrounding whitespace; if the
trimmed text has at least two lines and both its first and its last line
start with a fenced-code marker, it removes those two boundary lines and
returns the interior, again whitespace-trimmed; otherwise it returns the
trimmed input. -/
theorem c5_sanitizer_refines_amended_spec (response : List Char) :
    cleanAIMarkdown response = cleanSpecAmended response := by
  simp only [cleanAIMarkdown, cleanSpecAmended]
  by_cases h : (splitNl (trimSpace response)).length < 2
  · have h2 : ¬ 2 ≤ (splitNl (trimSpace response)).length := by omega
    simp [h, h2]
  · have h2 : 2 ≤ (splitNl (trimSpace response)).length := by omega
    simp [h, h2]

/-- C6 (counterexample): the sanitizer is not idempotent — when the stripped
interior itself begins and ends with fence lines, a second application
strips again. -/
theorem c6_counterexample :
    cleanAIMarkdown (cleanAIMarkdown ("```\n```a\nb\n```c\n```".data)) ≠
      cleanAIMarkdown ("```\n```a\nb\n```c\n```".data) := by
  decide

/-- C6 (amended): the sanitizer is idempotent on every input whose sanitized
output is not itself fence-wrapped: if the output has fewer than two lines,
or its first and last lines do not both start with a fenced-code marker,
a second application returns it unchanged. -/
theorem c6_idempotent_on_unfenced_output (s : List Char)
    (h : (splitNl (cleanAIMarkdown s)).length < 2 ∨
      ("```".data.isPrefixOf ((splitNl (cleanAIMarkdown s)).headD []) &&
       "```".data.isPrefixOf ((splitNl (cleanAIMarkdown s)).getLastD [])) = false) :
    cleanAIMarkdown (cleanAIMarkdown s) = cleanAIMarkdown s := by
  have ht := trimSpace_cleanAIMarkdown s
  generalize hg : cleanAIMarkdown s = r at ht h ⊢
  show cleanAIMarkdown r = r
  rcases h with h | h
  · simp [cleanAIMarkdown, ht, h]
  · by_cases hlen : (splitNl r).length < 2
    · simp [cleanAIMarkdown, ht, hlen]
    · simp only [cleanAIMarkdown, ht]
      rw [if_neg hlen, if_neg (by rw [h]; exact Bool.false_ne_true)]

/-- C6 witness: a one-line response sanitizes to itself and stays fixed. -/
theorem c6_witness :
    cleanAIMarkdown (cleanAIMarkdown ("abc".data)) = cleanAIMarkdown ("abc".data) :=
  c6_idempotent_on_unfenced_output ("abc".data) (Or.inl (by decide))

/-- C7: when a begin marker is found but neither the strict end marker (with
trailing newline) nor the relaxed end marker (without trailing line
terminator) for its extracted path occurs in the following text, the scan
stops there and emits nothing further; the call succeeds with exactly the
blocks extracted so far whenever at least one block was extracted; and the
call returns the "no valid file blocks found" error if and only if zero
blocks were extracted from the whole response. -/
theorem c7_missing_end_marker_policy :
    (∀ (rem : List Char) (bi pe : Nat),
      strIndex? rem BeginMarkerPfx = some bi →
      strIndex? (rem.drop (bi + BeginMarkerPfx.length)) BeginMarkerSfx = some pe →
      strIndex? ((rem.drop (bi + BeginMarkerPfx.length)).drop (pe + BeginMarkerSfx.length))
        (EndMarkerPfx ++ trimSpace ((rem.drop (bi + BeginMarkerPfx.length)).take pe) ++
          EndMarkerSfx) = none →
      strIndex? ((rem.drop (bi + BeginMarkerPfx.length)).drop (pe + BeginMarkerSfx.length))
        (EndMarkerPfx ++ trimSpace ((rem.drop (bi + BeginMarkerPfx.length)).take pe) ++
          " ---".data) = none →
      extractBlocks rem = []) ∧
    (∀ resp : List Char,
      ApplyFullTextChangesToFiles resp = .error errNoBlocks ↔
        extractBlocks (trimSpace (cleanAIMarkdown resp)) = []) ∧
    (∀ resp : List Char,
      extractBlocks (trimSpace (cleanAIMarkdown resp)) ≠ [] →
        ApplyFullTextChangesToFiles resp =
          .ok (extractBlocks (trimSpace (cleanAIMarkdown resp)))) := by
  refine ⟨?_, ?_, ?_⟩
  · intro rem bi pe h1 h2 h3 h4
    show extractBlocksFuel (rem.length + 1) rem = []
    simp only [extractBlocksFuel, h1, h2, h3, h4]
  · intro resp
    by_cases hb : extractBlocks (trimSpace (cleanAIMarkdown resp)) = [] <;>
      simp [ApplyFullTextChangesToFiles, hb]
  · intro resp hb
    simp [ApplyFullTextChangesToFiles, hb]

/-- C7 witness: a lone begin marker with no end marker stops the scan and
is an error; preceded by one complete block, that block is still emitted
and the call succeeds. -/
theorem c7_witness :
    extractBlocks ("--- BEGIN_OF_FILE: /tmp/b.txt ---\nworld".data) = [] ∧
    ApplyFullTextChangesToFiles ("--- BEGIN_OF_FILE: /tmp/b.txt ---\nworld\n".data) =
      .error errNoBlocks ∧
    ApplyFullTextChangesToFiles
      ("--- BEGIN_OF_FILE: /tmp/a.txt ---\nhello\n\n--- END_OF_FILE: /tmp/a.txt ---\n--- BEGIN_OF_FILE: /tmp/b.txt ---\nworld\n".data) =
      .ok [("/tmp/a.txt".data, "hello\n".data)] := by
  refine ⟨?_, ?_, ?_⟩
  · exact c7_missing_end_marker_policy.1 _ 0 11 (by decide) (by decide)
      (by decide) (by decide)
  · exact (c7_missing_end_marker_policy.2.1 _).mpr (by decide)
  · rw [c7_missing_end_marker_policy.2.2 _ (by decide)]
    rfl

/-- C8: a diff-dialect edit unit whose target path does not exist on disk
fails the batch with a file-not-found error, creates no file at that path,
and processes no subsequent unit — the result does not depend on the rest
of the batch and the file system is returned exactly as it was. -/
theorem c8_missing_file_aborts (fs : FileSystem) (p d : List Char)
    (rest : List (List Char × List Char)) (h : fs p = none) :
    runUnits fs ((p, d) :: rest) = (fs, some (.fileNotFound p)) ∧
    (runUnits fs ((p, d) :: rest)).1 p = none := by
  have hrun : runUnits fs ((p, d) :: rest) = (fs, some (.fileNotFound p)) := by
    simp [runUnits, h]
  exact ⟨hrun, by rw [hrun]; exact h⟩

/-- C8 witness: on an empty file system the unit for `/x` fails at once. -/
theorem c8_witness :
    runUnits (fun _ => none) [("/x".data, "d".data)] =
      ((fun _ => none : FileSystem), some (.fileNotFound ("/x".data))) ∧
    (runUnits (fun _ => none) [("/x".data, "d".data)]).1 ("/x".data) = none :=
  c8_missing_file_aborts (fun _ => none) ("/x".data) ("d".data) [] rfl

/-- C9: for a diff-dialect unit whose target file exists and whose diff
applies successfully, the coordinator's write replaces the content while
keeping the file's original permission bits; the default mode `0644` is
used by the modelled `os.WriteFile` only when no file exists at the path. -/
theorem c9_write_preserves_permissions (fs : FileSystem)
    (p d originalContent newContent : List Char) (perm : Nat)
    (rest : List (List Char × List Char))
    (h1 : fs p = some (originalContent, perm))
    (h2 : ApplyUnifiedDiff originalContent d = (newContent, none)) :
    runUnits fs ((p, d) :: rest) =
      runUnits (writeFileModel fs p newContent 0o644) rest ∧
    writeFileModel fs p newContent 0o644 p = some (newContent, perm) := by
  constructor
  · simp [runUnits, h1, h2]
  · simp [writeFileModel, h1]

/-- C9 witness: a file with mode `0600` keeps mode `0600` after the write
performed for an (empty, hence successful) diff. -/
theorem c9_witness :
    runUnits (fun q => if q = "/f".data then some ("x".data, 0o600) else none)
        [("/f".data, "".data)] =
      runUnits
        (writeFileModel
          (fun q => if q = "/f".data then some ("x".data, 0o600) else none)
          ("/f".data) ("x".data) 0o644) [] ∧
    writeFileModel
        (fun q => if q = "/f".data then some ("x".data, 0o600) else none)
        ("/f".data) ("x".data) 0o644 ("/f".data) = some ("x".data, 0o600) :=
  c9_write_preserves_permissions _ ("/f".data) ("".data) ("x".data) ("x".data)
    0o600 [] rfl rfl

/-- C10: the file path used as the write target and for reconstructing the
end marker is the text between the begin marker's prefix and suffix with
surrounding whitespace removed: a begin marker with extra spaces around the
path yields the trimmed path `/tmp/a.txt`, and the end-marker search
succeeds using this trimmed path. -/
theorem c10_path_is_trimmed :
    ApplyFullTextChangesToFiles
      ("--- BEGIN_OF_FILE:   /tmp/a.txt ---\nbody\n\n--- END_OF_FILE: /tmp/a.txt ---\n".data) =
      .ok [("/tmp/a.txt".data, "body\n".data)] := by
  rfl

end AICoder
